import Mathlib

/-!
# Verification of the Article 12 Merkle ledger

A shallow embedding of `src/gallows/ledger/merkle_ledger.py`.

Modelling conventions:
* SHA-256 is modelled by an explicit hash-function parameter
  `H : String → String`; no property of the hash is assumed unless stated.
  For concrete evaluation a trivial injective stand-in `demoHash` is used.
* Python lists become `List String`, Python `Optional[str]` becomes
  `Option String`, Python dicts with fixed keys become structures.
* Fields of the Python classes that no proved property touches
  (`created_at`, `version`, the request-time certificate id and issue
  timestamp) are omitted from the structures; a comment marks each omission.
* Mutation is modelled by state passing: a method that mutates `self` and
  returns a value is embedded as a function returning the updated state
  paired with the value.
-/

namespace Gallows

/-- A stand-in hash used for concrete evaluation; injective by construction
(it brackets its input), so distinct inputs give distinct outputs, which is
all the counterexamples rely on. -/
def demoHash (s : String) : String := "sha[" ++ s ++ "]"

/-! ## `Article12Event` (merkle_ledger.py lines 27–74) -/

/-- `Article12Event` dataclass. `event_id` / `timestamp` are produced by
`uuid.uuid4()` / `datetime.utcnow()` at creation; they are taken as inputs
here. `metadata : Dict[str, Any]` is modelled as an association list of
strings (only its exclusion from the hash matters to any claim). -/
structure Article12Event where
  timestamp : String
  event_id : String
  model_id : String
  input_hash : String
  output_hash : String
  compliance_status : String
  risk_level : String
  article_reference : Int
  system_purpose : String
  deployment_context : String
  oversight_mechanism : Option String
  metadata : List (String × String)
deriving Repr, DecidableEq

/-- Python `x or ""` on an `Optional[str]`: `None` and `""` both give `""`,
any other string gives itself — pointwise equal to `Option.getD · ""`. -/
def orEmpty (o : Option String) : String := o.getD ""

/-- Hex digit for `hex4` (lowercase, as Python produces). -/
def hexDigit (n : Nat) : Char :=
  if n < 10 then Char.ofNat (48 + n) else Char.ofNat (87 + n)

/-- Four-hex-digit rendering used by JSON `\uXXXX` escapes. -/
def hex4 (n : Nat) : String :=
  String.mk [hexDigit (n / 4096 % 16), hexDigit (n / 256 % 16),
             hexDigit (n / 16 % 16), hexDigit (n % 16)]

/-- One character of `json.dumps` string escaping: `"` and `\` get a
backslash escape, control and non-ASCII characters a `\uXXXX` escape
(Python's short escapes `\n`, `\t`, … and astral-plane surrogate pairs are
collapsed into the `\uXXXX` form; no claim depends on the distinction),
everything else passes through. -/
def jsonEscapeChar (c : Char) : String :=
  if c = Char.ofNat 34 then String.mk [Char.ofNat 92, Char.ofNat 34]
  else if c = Char.ofNat 92 then String.mk [Char.ofNat 92, Char.ofNat 92]
  else if c.toNat < 32 ∨ c.toNat > 126 then
    String.mk [Char.ofNat 92, Char.ofNat 117] ++ hex4 c.toNat
  else String.singleton c

/-- A JSON string literal: quoted, characters escaped. -/
def jsonStringLit (s : String) : String :=
  String.mk [Char.ofNat 34] ++ String.join (s.toList.map jsonEscapeChar)
    ++ String.mk [Char.ofNat 34]

/-- `Article12Event.to_ordered_dict` followed by
`json.dumps(..., separators=(',', ':'))`: the canonical compact JSON text of
exactly the eleven fixed fields, in the source's fixed key order, with
`oversight_mechanism or ""`. `metadata` does not appear. -/
def to_ordered_dict_json (e : Article12Event) : String :=
  "\x7b\"event_id\":" ++ jsonStringLit e.event_id
    ++ ",\"timestamp\":" ++ jsonStringLit e.timestamp
    ++ ",\"model_id\":" ++ jsonStringLit e.model_id
    ++ ",\"input_hash\":" ++ jsonStringLit e.input_hash
    ++ ",\"output_hash\":" ++ jsonStringLit e.output_hash
    ++ ",\"compliance_status\":" ++ jsonStringLit e.compliance_status
    ++ ",\"risk_level\":" ++ jsonStringLit e.risk_level
    ++ ",\"article_reference\":" ++ toString e.article_reference
    ++ ",\"system_purpose\":" ++ jsonStringLit e.system_purpose
    ++ ",\"deployment_context\":" ++ jsonStringLit e.deployment_context
    ++ ",\"oversight_mechanism\":" ++ jsonStringLit (orEmpty e.oversight_mechanism)
    ++ "\x7d"

/-- `Article12Event.compute_event_hash`: SHA-256 (the parameter `H`) of the
canonical JSON text. -/
def compute_event_hash (H : String → String) (e : Article12Event) : String :=
  H (to_ordered_dict_json e)

/-! ## `MerkleNode` (lines 77–90) -/

/-- A `MerkleNode` is either a leaf (`left is None and right is None`,
carrying `value`) or an internal node with two children. The `hash`
attribute computed in `__init__` becomes the function `MerkleNode.hash`. -/
inductive MerkleNode where
  | leaf (value : String)
  | node (left right : MerkleNode)
deriving Repr, DecidableEq

/-- `MerkleNode._compute_hash`: a leaf's stored hash is its `value`
verbatim; an internal node's is `sha256(left.hash + right.hash)` — the
children's hashes concatenated with no domain tag. -/
def MerkleNode.hash (H : String → String) : MerkleNode → String
  | .leaf v => v
  | .node l r => H (MerkleNode.hash H l ++ MerkleNode.hash H r)

/-! ## `MerkleTree` (lines 93–215) -/

/-- `MerkleTree` state. `created_at` is omitted (no claim mentions it);
`chain_id` is a `uuid4` prefix taken as an input. `root: Optional[str]`
starts as `None`. -/
structure MerkleTree where
  leaves : List String
  nodes : List MerkleNode
  root : Option String
  tree_height : Nat
  chain_id : String
deriving Repr, DecidableEq

/-- `MerkleTree.__init__` with a given `chain_id`, followed by a sequence
of appends that installed `leaves` (only `leaves` is populated before a
build). -/
def mkTree (leaves : List String) (chain_id : String := "chain") : MerkleTree :=
  { leaves := leaves, nodes := [], root := none, tree_height := 0,
    chain_id := chain_id }

/-- The `while power < n: power *= 2` loop of `_pad_to_power_of_two`,
with `power` as the accumulator. The `0 < power` conjunct is a totality
guard only: the source always enters the loop at `power = 1`, and doubling
keeps the accumulator positive. -/
def nextPowLoop (n power : Nat) : Nat :=
  if h : 0 < power ∧ power < n then nextPowLoop n (power * 2) else power
termination_by n - power
decreasing_by
  have h1 : 0 < power := h.1
  have h2 : power < n := h.2
  omega

/-- `power` after the loop, started from `1` as in the source. -/
def nextPow (n : Nat) : Nat := nextPowLoop n 1

/-- The `while len(padded) < power: padded.append(leaves[-1])` loop of
`_pad_to_power_of_two`. -/
def padLoop (power : Nat) (last : String) (padded : List String) :
    List String :=
  if h : padded.length < power then padLoop power last (padded ++ [last])
  else padded
termination_by power - padded.length
decreasing_by simp; omega

/-- `MerkleTree._pad_to_power_of_two`. Empty input gives the single
sentinel leaf `sha256(b"empty")`; otherwise the list is extended with
copies of `leaves[-1]` up to the next power of two. -/
def padToPowerOfTwo (H : String → String) (leaves : List String) :
    List String :=
  if leaves.length = 0 then [H "empty"]
  else padLoop (nextPow leaves.length) (leaves.getLastD "") leaves

/-- One pass of the pairing loop inside `_build_tree`
(`for i in range(0, len(current_level), 2)`): adjacent nodes are paired;
a trailing unmatched node is paired with itself. -/
def buildLevel : List MerkleNode → List MerkleNode
  | [] => []
  | [a] => [MerkleNode.node a a]
  | a :: b :: rest => MerkleNode.node a b :: buildLevel rest

/-- The `while len(current_level) > 1` loop of `_build_tree`: `current` is
`current_level`, `acc` is `all_nodes`, and each new level is appended to
the accumulator. -/
def buildLevels (current acc : List MerkleNode) : List MerkleNode :=
  if h : 1 < current.length then
    buildLevels (buildLevel current) (acc ++ buildLevel current)
  else acc
termination_by current.length
decreasing_by
  have key : ∀ l : List MerkleNode, (buildLevel l).length = (l.length + 1) / 2 := by
    intro l
    induction l using buildLevel.induct with
    | case1 => simp [buildLevel]
    | case2 a => simp [buildLevel]
    | case3 a b rest ih => simp [buildLevel, ih]; omega
  rw [key]
  omega

/-- `MerkleTree._build_tree`: wraps every leaf hash in a leaf node, then
runs the level-pairing loop, returning `all_nodes` (leaf nodes first, then
each parent in creation order). -/
def build_tree (leaves : List String) : List MerkleNode :=
  let current := leaves.map MerkleNode.leaf
  buildLevels current current

/-- Python `int.bit_length()` on a natural number. -/
def bitLength (n : Nat) : Nat :=
  if h : n = 0 then 0 else bitLength (n / 2) + 1
termination_by n
decreasing_by omega

/-- `MerkleTree.build`: empty ledger short-circuits to
`sha256(b"empty_ledger")` without touching `tree_height`; otherwise pad,
build all nodes, take the last node's hash as root (`""` if there are no
nodes) and set `tree_height = len(padded_leaves).bit_length()`. Returns
the updated tree and the returned root. -/
def MerkleTree.build (H : String → String) (t : MerkleTree) :
    MerkleTree × String :=
  if t.leaves.isEmpty then
    let r := H "empty_ledger"
    ({ t with root := some r }, r)
  else
    let padded := padToPowerOfTwo H t.leaves
    let all_nodes := build_tree padded
    let r := match all_nodes.getLast? with
      | some nd => nd.hash H
      | none => ""
    ({ t with nodes := all_nodes, root := some r,
              tree_height := bitLength padded.length }, r)

/-- `MerkleTree.add_event`: append the event's hash to `leaves` and return
it. No other field changes — in particular `root` is left as it was. -/
def MerkleTree.add_event (H : String → String) (t : MerkleTree)
    (e : Article12Event) : MerkleTree × String :=
  let event_hash := compute_event_hash H e
  ({ t with leaves := t.leaves ++ [event_hash] }, event_hash)

/-- The proof dictionary returned by `generate_proof`. Its `"proof"` list
holds entries such as `{"type": "root_anchor", "root": ...}`, modelled as
`(type, root)` pairs. -/
structure Proof where
  event_index : Int
  event_hash : String
  proof : List (String × String)
  root : String
  chain_id : String
  tree_height : Nat
deriving Repr, DecidableEq

/-- Python list subscripting `xs[i]` with a possibly negative `int` index:
a negative index counts from the end; out of bounds raises `IndexError`. -/
def pyIndex (xs : List String) (i : Int) : Except String String :=
  let j : Int := if i < 0 then i + xs.length else i
  if 0 ≤ j then
    match xs.get? j.toNat with
    | some v => Except.ok v
    | none => Except.error "IndexError: list index out of range"
  else Except.error "IndexError: list index out of range"

/-- Python truthiness of `self.root : Optional[str]`: falsy iff `None` or
`""`. -/
def rootFalsy (o : Option String) : Bool :=
  match o with
  | none => true
  | some r => r = ""

/-- `MerkleTree.generate_proof`: raises `ValueError` when
`event_index >= len(self.leaves)` (an `int` comparison, so negative
indices pass); then builds if `not self.root`; then reads
`self.leaves[event_index]` (Python subscripting) and returns the proof
dictionary, whose `"proof"` list is the single `root_anchor` entry.
Errors stand for the raised exceptions. -/
def MerkleTree.generate_proof (H : String → String) (t : MerkleTree)
    (event_index : Int) : Except String (MerkleTree × Proof) :=
  if (t.leaves.length : Int) ≤ event_index then
    Except.error "ValueError: Event index out of range"
  else
    let t1 := if rootFalsy t.root then (t.build H).1 else t
    match pyIndex t1.leaves event_index with
    | Except.error e => Except.error e
    | Except.ok current_hash =>
      let rootStr := t1.root.getD ""
      Except.ok (t1,
        { event_index := event_index
          event_hash := current_hash
          proof := [("root_anchor", rootStr)]
          root := rootStr
          chain_id := t1.chain_id
          tree_height := t1.tree_height })

/-- `MerkleTree.verify_proof`: `root != "" and len(event_hash) == 64`.
Nothing else in the proof dictionary is inspected. -/
def MerkleTree.verify_proof (_t : MerkleTree) (p : Proof) : Bool :=
  p.root ≠ "" ∧ p.event_hash.length = 64

/-! ## `ComplianceLedger` (lines 218–298) -/

/-- `ComplianceLedger` state. `version` and `created_at` are omitted
(no claim mentions them). -/
structure ComplianceLedger where
  chain_name : String
  merkle_tree : MerkleTree
  events : List Article12Event
deriving Repr, DecidableEq

/-- `ComplianceLedger.record_compliance_event`: hash and truncate the raw
input/output to 16 hex chars, construct the event (with its generated
`event_id`/`timestamp` taken as inputs, `oversight_mechanism = None`,
empty `metadata`), append it to `events` and to the Merkle tree. -/
def record_compliance_event (H : String → String) (L : ComplianceLedger)
    (model_id input_data output_data compliance_status : String)
    (risk_level : String := "HIGH_RISK") (article_reference : Int := 12)
    (system_purpose : String := "") (deployment_context : String := "")
    (event_id : String := "") (timestamp : String := "") :
    ComplianceLedger × Article12Event :=
  let event : Article12Event :=
    { timestamp := timestamp
      event_id := event_id
      model_id := model_id
      input_hash := (H input_data).take 16
      output_hash := (H output_data).take 16
      compliance_status := compliance_status
      risk_level := risk_level
      article_reference := article_reference
      system_purpose := system_purpose
      deployment_context := deployment_context
      oversight_mechanism := none
      metadata := [] }
  ({ L with events := L.events ++ [event]
            merkle_tree := (L.merkle_tree.add_event H event).1 }, event)

/-- `ComplianceLedger.finalize_block`: build the Merkle tree. -/
def finalize_block (H : String → String) (L : ComplianceLedger) :
    ComplianceLedger × String :=
  let (t, r) := L.merkle_tree.build H
  ({ L with merkle_tree := t }, r)

/-- `ComplianceLedger._calculate_compliance_level`: `0.0` on an empty
ledger, else `(passed / len(events)) * 100`, computed here in exact
rational arithmetic (Python uses IEEE doubles; no claim hinges on
rounding). -/
def calculate_compliance_level (L : ComplianceLedger) : ℚ :=
  if L.events = [] then 0
  else
    ((L.events.filter fun e => e.compliance_status = "PASS").length : ℚ)
      / (L.events.length : ℚ) * 100

/-- The certificate dictionary. `certificate_id` and `issued_at` are
request-time artifacts (wall clock / uuid) and are omitted;
`articles_covered` is a Python `set`, modelled as the deduplicated list of
`article_reference` values. -/
structure Certificate where
  chain_name : String
  ledger_root : String
  total_events : Nat
  compliance_level : ℚ
  articles_covered : List Int
  status : String
deriving Repr, DecidableEq

/-- `ComplianceLedger.get_compliance_certificate`:
`root = self.merkle_tree.root or self.finalize_block()` (a falsy cached
root — `None` or `""` — triggers a build, otherwise the cached value is
used as-is), then the certificate fields, with
`status = "COMPLIANT" if level >= 80 else "REVIEW_REQUIRED"`. -/
def get_compliance_certificate (H : String → String)
    (L : ComplianceLedger) : ComplianceLedger × Certificate :=
  let res :=
    if rootFalsy L.merkle_tree.root then finalize_block H L
    else (L, L.merkle_tree.root.getD "")
  (res.1,
    { chain_name := L.chain_name
      ledger_root := res.2
      total_events := L.events.length
      compliance_level := calculate_compliance_level L
      articles_covered := (L.events.map fun e => e.article_reference).dedup
      status :=
        if calculate_compliance_level L ≥ 80 then "COMPLIANT"
        else "REVIEW_REQUIRED" })

/-! ## Observers and concrete fixtures -/

/-- The `"root"` field of a successful `generate_proof` call, `none` when
an exception was raised. -/
def proofRootOf : Except String (MerkleTree × Proof) → Option String
  | Except.ok tp => some tp.2.root
  | Except.error _ => none

/-- The `("event_index", "event_hash")` fields of a successful
`generate_proof` call, `none` when an exception was raised. -/
def proofIdxHashOf : Except String (MerkleTree × Proof) → Option (Int × String)
  | Except.ok tp => some (tp.2.event_index, tp.2.event_hash)
  | Except.error _ => none

/-- A 64-character leaf hash, as SHA-256 hex digests are. -/
def leafA : String :=
  "aaaaaaaaaaaaaaaaaaaaaaaaaaaaaaaaaaaaaaaaaaaaaaaaaaaaaaaaaaaaaaaa"

/-- A second 64-character leaf hash. -/
def leafB : String :=
  "bbbbbbbbbbbbbbbbbbbbbbbbbbbbbbbbbbbbbbbbbbbbbbbbbbbbbbbbbbbbbbbb"

/-- A concrete event (generated `event_id`/`timestamp` fixed), with a
non-empty `metadata` mapping and `oversight_mechanism = None`. -/
def eventA : Article12Event :=
  { timestamp := "2026-01-01T00:00:00Z"
    event_id := "11111111-2222-3333-4444-555555555555"
    model_id := "gpt-4"
    input_hash := "0123456789abcdef"
    output_hash := "fedcba9876543210"
    compliance_status := "PASS"
    risk_level := "HIGH_RISK"
    article_reference := 12
    system_purpose := "triage"
    deployment_context := "hospital"
    oversight_mechanism := none
    metadata := [("reviewer", "alice")] }

/-- Same fixed compliance fields as `eventA` (with `oversight_mechanism`
present but empty rather than absent) and different `metadata`. -/
def eventB : Article12Event :=
  { eventA with oversight_mechanism := some "", metadata := [] }

/-- `eventA`'s leaf hash under the demo hash. -/
def hashA : String := compute_event_hash demoHash eventA

/-- A two-leaf tree before any build. -/
def treeAB : MerkleTree := mkTree [leafA, leafB]

/-- Root of the two-leaf tree: children concatenated, hashed. -/
def rootAB : String := demoHash (leafA ++ leafB)

/-- The two-leaf tree after `build`. -/
def builtAB : MerkleTree :=
  { leaves := [leafA, leafB]
    nodes := [MerkleNode.leaf leafA, MerkleNode.leaf leafB,
              MerkleNode.node (MerkleNode.leaf leafA) (MerkleNode.leaf leafB)]
    root := some rootAB
    tree_height := 2
    chain_id := "chain" }

/-- The proof dictionary `generate_proof` returns for index 0 of the
two-leaf tree. -/
def proofAB : Proof :=
  { event_index := 0
    event_hash := leafA
    proof := [("root_anchor", rootAB)]
    root := rootAB
    chain_id := "chain"
    tree_height := 2 }

/-- The one-leaf tree after `build`: the root of a single-leaf tree is the
leaf value itself, and the height is `(1).bit_length() = 1`. -/
def tBuilt : MerkleTree :=
  { leaves := [leafA]
    nodes := [MerkleNode.leaf leafA]
    root := some leafA
    tree_height := 1
    chain_id := "chain" }

/-- `tBuilt` after one more `add_event` (no rebuild): the cached root and
height are untouched. -/
def tAfter : MerkleTree := (tBuilt.add_event demoHash eventA).1

/-- The stale proof `generate_proof` hands out for index 1 of `tAfter`:
its root is still the one-leaf root `leafA`. -/
def staleProof : Proof :=
  { event_index := 1
    event_hash := hashA
    proof := [("root_anchor", leafA)]
    root := leafA
    chain_id := "chain"
    tree_height := 1 }

/-- A ledger whose Merkle tree has a stale cached root. -/
def staleLedger : ComplianceLedger :=
  { chain_name := "digital-gallows", merkle_tree := tAfter,
    events := [eventA, eventA] }

/-- A structurally malformed proof: zero path steps against a declared
tree height of 3, but a well-sized digest and a non-empty root. -/
def malformedProof : Proof :=
  { event_index := 0
    event_hash := leafA
    proof := []
    root := "r"
    chain_id := "chain"
    tree_height := 3 }

/-! ## Lemmas about the padding loop -/

theorem nextPowLoop_ge (n power : Nat) :
    0 < power → n ≤ nextPowLoop n power := by
  induction power using nextPowLoop.induct n with
  | case1 power h ih =>
    intro _
    rw [nextPowLoop, dif_pos h]
    exact ih (by omega)
  | case2 power h =>
    intro hp
    rw [nextPowLoop, dif_neg h]
    omega

theorem nextPowLoop_pow (n power : Nat) :
    (∃ j, power = 2 ^ j) → ∃ k, nextPowLoop n power = 2 ^ k := by
  induction power using nextPowLoop.induct n with
  | case1 power h ih =>
    rintro ⟨j, rfl⟩
    rw [nextPowLoop, dif_pos h]
    exact ih ⟨j + 1, by ring⟩
  | case2 power h =>
    rintro ⟨j, rfl⟩
    rw [nextPowLoop, dif_neg h]
    exact ⟨j, rfl⟩

theorem nextPowLoop_min (n power : Nat) :
    ∀ t, n ≤ power * 2 ^ t → nextPowLoop n power ≤ power * 2 ^ t := by
  induction power using nextPowLoop.induct n with
  | case1 power h ih =>
    intro t ht
    rw [nextPowLoop, dif_pos h]
    have hpos : 0 < power := h.1
    have hlt : power < n := h.2
    have ht1 : 1 ≤ t := by
      by_contra hc
      have : t = 0 := by omega
      subst this
      simp at ht
      omega
    have : power * 2 * 2 ^ (t - 1) = power * 2 ^ t := by
      have : 2 * 2 ^ (t - 1) = 2 ^ t := by
        have := Nat.sub_add_cancel ht1
        calc 2 * 2 ^ (t - 1) = 2 ^ (t - 1 + 1) := by ring
        _ = 2 ^ t := by rw [this]
      calc power * 2 * 2 ^ (t - 1) = power * (2 * 2 ^ (t - 1)) := by ring
      _ = power * 2 ^ t := by rw [this]
    rw [← this]
    exact ih (t - 1) (by omega)
  | case2 power h =>
    intro t ht
    rw [nextPowLoop, dif_neg h]
    have : 1 ≤ 2 ^ t := Nat.one_le_two_pow
    calc power = power * 1 := by ring
    _ ≤ power * 2 ^ t := Nat.mul_le_mul_left power this

theorem nextPow_ge (n : Nat) : n ≤ nextPow n :=
  nextPowLoop_ge n 1 Nat.one_pos

theorem nextPow_pow (n : Nat) : ∃ k, nextPow n = 2 ^ k :=
  nextPowLoop_pow n 1 ⟨0, rfl⟩

theorem nextPow_min (n k : Nat) (h : n ≤ 2 ^ k) : nextPow n ≤ 2 ^ k := by
  have := nextPowLoop_min n 1 k (by simpa using h)
  simpa using this

/-- The loop from `power = 1` computes `2 ^ ⌈log₂ n⌉` on positive input. -/
theorem nextPow_eq_two_pow_clog (n : Nat) (hn : 0 < n) :
    nextPow n = 2 ^ Nat.clog 2 n := by
  obtain ⟨k, hk⟩ := nextPow_pow n
  have h1 : nextPow n ≤ 2 ^ Nat.clog 2 n :=
    nextPow_min n _ (Nat.le_pow_clog one_lt_two n)
  have h2 : Nat.clog 2 n ≤ k := by
    rw [← Nat.le_pow_iff_clog_le one_lt_two, ← hk]
    exact nextPow_ge n
  have h3 : 2 ^ Nat.clog 2 n ≤ nextPow n := by
    rw [hk]
    exact Nat.pow_le_pow_right (by omega) h2
  omega

theorem padLoop_eq (power : Nat) (last : String) (padded : List String) :
    padLoop power last padded
      = padded ++ List.replicate (power - padded.length) last := by
  induction padded using padLoop.induct power last with
  | case1 padded h ih =>
    rw [padLoop, dif_pos h]
    rw [ih]
    have hlen : (padded ++ [last]).length = padded.length + 1 := by simp
    rw [hlen, List.append_assoc]
    congr 1
    have : power - padded.length = (power - (padded.length + 1)) + 1 := by
      omega
    rw [this, List.replicate_succ]
    rfl
  | case2 padded h =>
    rw [padLoop, dif_neg h]
    have : power - padded.length = 0 := by omega
    simp [this]

theorem padToPowerOfTwo_eq (H : String → String) (leaves : List String)
    (h : leaves ≠ []) :
    padToPowerOfTwo H leaves
      = leaves ++ List.replicate (nextPow leaves.length - leaves.length)
          (leaves.getLastD "") := by
  have hlen : leaves.length ≠ 0 := by simpa using h
  rw [padToPowerOfTwo]
  simp only [hlen, if_false]
  exact padLoop_eq _ _ _

theorem padToPowerOfTwo_length (H : String → String) (leaves : List String)
    (h : leaves ≠ []) :
    (padToPowerOfTwo H leaves).length = nextPow leaves.length := by
  rw [padToPowerOfTwo_eq H leaves h]
  simp
  have := nextPow_ge leaves.length
  omega

theorem bitLength_two_pow (k : Nat) : bitLength (2 ^ k) = k + 1 := by
  induction k with
  | zero =>
    rw [bitLength]
    norm_num
    rw [bitLength]
    norm_num
  | succ k ih =>
    rw [bitLength]
    have h2 : (2 : Nat) ^ (k + 1) ≠ 0 := by positivity
    simp only [h2, dite_false]
    have : 2 ^ (k + 1) / 2 = 2 ^ k := by
      rw [Nat.pow_succ]
      exact Nat.mul_div_cancel _ (by omega)
    rw [this, ih]

/-! ## Lemmas about tree building and indexing -/

theorem build_leaves (H : String → String) (t : MerkleTree) :
    ((t.build H).1).leaves = t.leaves := by
  unfold MerkleTree.build
  split <;> rfl

theorem build_chain_id (H : String → String) (t : MerkleTree) :
    ((t.build H).1).chain_id = t.chain_id := by
  unfold MerkleTree.build
  split <;> rfl

theorem pyIndex_nonneg (xs : List String) (i : Int) (h0 : 0 ≤ i)
    (hlt : i < (xs.length : Int)) :
    pyIndex xs i = Except.ok (xs.getD i.toNat "") := by
  unfold pyIndex
  have hneg : ¬ i < 0 := by omega
  simp only [hneg, if_false]
  rw [if_pos h0]
  have hlt' : i.toNat < xs.length := by omega
  have : xs.get? i.toNat = some (xs.getD i.toNat "") := by
    rw [List.getD_eq_getElem?_getD, List.get?_eq_getElem?,
        List.getElem?_eq_getElem hlt']
    simp
  rw [this]

theorem pyIndex_neg (xs : List String) (i : Int)
    (hlo : -(xs.length : Int) ≤ i) (hneg : i < 0) :
    pyIndex xs i = Except.ok (xs.getD (i + (xs.length : Int)).toNat "") := by
  unfold pyIndex
  simp only [hneg, if_true]
  have h0 : (0 : Int) ≤ i + (xs.length : Int) := by omega
  rw [if_pos h0]
  have hlt' : (i + (xs.length : Int)).toNat < xs.length := by omega
  have : xs.get? (i + (xs.length : Int)).toNat
      = some (xs.getD (i + (xs.length : Int)).toNat "") := by
    rw [List.getD_eq_getElem?_getD, List.get?_eq_getElem?,
        List.getElem?_eq_getElem hlt']
    simp
  rw [this]

/-- The shape of every successful `generate_proof` call: when
`event_index` passes the range check and Python subscripting succeeds, the
result is built from the (possibly freshly built) tree `t1`. -/
theorem generate_proof_ok_shape (H : String → String) (t : MerkleTree)
    (i : Int) (hlt : i < (t.leaves.length : Int)) (v : String)
    (hv : pyIndex ((if rootFalsy t.root then (t.build H).1 else t)).leaves i
        = Except.ok v) :
    t.generate_proof H i =
      (let t1 := if rootFalsy t.root then (t.build H).1 else t
       Except.ok (t1,
        { event_index := i
          event_hash := v
          proof := [("root_anchor", t1.root.getD "")]
          root := t1.root.getD ""
          chain_id := t1.chain_id
          tree_height := t1.tree_height })) := by
  unfold MerkleTree.generate_proof
  rw [if_neg (by omega)]
  simp only []
  rw [hv]

/-! ## Claim C9 -/

/-- C9: the canonical event hash depends on exactly the eleven fixed
compliance fields. Two `Article12Event`s agreeing on `event_id`,
`timestamp`, `model_id`, `input_hash`, `output_hash`, `compliance_status`,
`risk_level`, `article_reference`, `system_purpose`, `deployment_context`,
and on `oversight_mechanism` after the absent-to-empty canonicalization
(`x or ""`), hash identically under any hash function — in particular
even when their `metadata` mappings differ. -/
theorem C9_hash_covers_exactly_fixed_fields (H : String → String)
    (e1 e2 : Article12Event)
    (h1 : e1.event_id = e2.event_id)
    (h2 : e1.timestamp = e2.timestamp)
    (h3 : e1.model_id = e2.model_id)
    (h4 : e1.input_hash = e2.input_hash)
    (h5 : e1.output_hash = e2.output_hash)
    (h6 : e1.compliance_status = e2.compliance_status)
    (h7 : e1.risk_level = e2.risk_level)
    (h8 : e1.article_reference = e2.article_reference)
    (h9 : e1.system_purpose = e2.system_purpose)
    (h10 : e1.deployment_context = e2.deployment_context)
    (h11 : orEmpty e1.oversight_mechanism = orEmpty e2.oversight_mechanism) :
    compute_event_hash H e1 = compute_event_hash H e2 := by
  unfold compute_event_hash to_ordered_dict_json
  rw [h1, h2, h3, h4, h5, h6, h7, h8, h9, h10, h11]

/-- C9 witness: `eventA` (absent oversight, non-empty metadata) and
`eventB` (empty-string oversight, empty metadata) agree on the eleven
fixed fields up to canonicalization, differ in `metadata`, and hash
identically. -/
theorem C9_hash_covers_exactly_fixed_fields_witness :
    compute_event_hash demoHash eventA = compute_event_hash demoHash eventB
      ∧ eventA.metadata ≠ eventB.metadata
      ∧ eventA.oversight_mechanism ≠ eventB.oversight_mechanism :=
  ⟨C9_hash_covers_exactly_fixed_fields demoHash eventA eventB
      rfl rfl rfl rfl rfl rfl rfl rfl rfl rfl rfl,
   by decide, by decide⟩

/-! ## Claim C5 -/

/-- C5: for every non-empty leaf list of size `n`, the padded list has
length `nextPow n`, which is the smallest power of two `p ≥ n`
(`p = 2 ^ ⌈log₂ n⌉`, with `n ≤ p` and `p` below every power of two that is
at least `n`); its first `n` entries are the original leaves in order, and
the rest are copies of the last real leaf. -/
theorem C5_padding_repeats_last_leaf (H : String → String)
    (leaves : List String) (h : leaves ≠ []) :
    (padToPowerOfTwo H leaves).length = nextPow leaves.length
      ∧ nextPow leaves.length = 2 ^ Nat.clog 2 leaves.length
      ∧ leaves.length ≤ nextPow leaves.length
      ∧ (∀ j : Nat, leaves.length ≤ 2 ^ j → nextPow leaves.length ≤ 2 ^ j)
      ∧ (padToPowerOfTwo H leaves).take leaves.length = leaves
      ∧ (padToPowerOfTwo H leaves).drop leaves.length
          = List.replicate (nextPow leaves.length - leaves.length)
              (leaves.getLastD "") := by
  have hpos : 0 < leaves.length := List.length_pos.mpr h
  have heq := padToPowerOfTwo_eq H leaves h
  refine ⟨padToPowerOfTwo_length H leaves h,
          nextPow_eq_two_pow_clog leaves.length hpos,
          nextPow_ge leaves.length,
          fun j hj => nextPow_min leaves.length j hj, ?_, ?_⟩
  · rw [heq]
    exact List.take_left leaves _
  · rw [heq]
    exact List.drop_left leaves _

/-- C5 witness: three leaves pad to four entries, `["a","b","c","c"]`. -/
theorem C5_padding_repeats_last_leaf_witness :
    (padToPowerOfTwo demoHash ["a", "b", "c"]).length = nextPow 3
      ∧ nextPow 3 = 2 ^ Nat.clog 2 3
      ∧ 3 ≤ nextPow 3
      ∧ (padToPowerOfTwo demoHash ["a", "b", "c"]).take 3 = ["a", "b", "c"]
      ∧ (padToPowerOfTwo demoHash ["a", "b", "c"]).drop 3
          = List.replicate (nextPow 3 - 3) "c" :=
  ⟨(C5_padding_repeats_last_leaf demoHash ["a", "b", "c"] (by decide)).1,
   (C5_padding_repeats_last_leaf demoHash ["a", "b", "c"] (by decide)).2.1,
   (C5_padding_repeats_last_leaf demoHash ["a", "b", "c"] (by decide)).2.2.1,
   (C5_padding_repeats_last_leaf demoHash ["a", "b", "c"] (by decide)).2.2.2.2.1,
   (C5_padding_repeats_last_leaf demoHash ["a", "b", "c"] (by decide)).2.2.2.2.2⟩

/-! ## Claim C3 -/

/-- C3 counterexample: one event. The padded leaf count is
`nextPow 1 = 1` and `⌈log₂ 1⌉ = 0`, yet the built tree reports height `1`
(`(1).bit_length()`), so the claimed law `height = ⌈log₂ p⌉` fails at
`n = 1`. -/
theorem C3_height_counterexample :
    ((mkTree ["e1"]).build demoHash).1.tree_height = 1
      ∧ nextPow 1 = 1
      ∧ Nat.clog 2 1 = 0 := by
  refine ⟨?_, ?_, ?_⟩
  · simp [mkTree, MerkleTree.build, padToPowerOfTwo, nextPow, nextPowLoop,
          padLoop, build_tree, buildLevels, buildLevel, bitLength]
  · simp [nextPow, nextPowLoop]
  · simp

/-- C3 amended: after building over `n ≥ 1` events the reported height is
`⌈log₂ p⌉ + 1` — the bit length of the padded leaf count `p`, one more
than the claimed `⌈log₂ p⌉` — and the height is 0 when `n = 0` (the empty
build leaves `tree_height` untouched). -/
theorem C3_height_is_bit_length (H : String → String)
    (leaves : List String) (h : leaves ≠ []) :
    ((mkTree leaves).build H).1.tree_height
        = Nat.clog 2 (nextPow leaves.length) + 1
      ∧ ((mkTree []).build H).1.tree_height = 0 := by
  constructor
  · have hpos : 0 < leaves.length := List.length_pos.mpr h
    have hne : ((mkTree leaves).leaves.isEmpty) = false := by
      simp [mkTree, h]
    unfold MerkleTree.build
    rw [if_neg (by simp [hne])]
    simp only [mkTree]
    rw [padToPowerOfTwo_length H leaves h]
    rw [nextPow_eq_two_pow_clog leaves.length hpos]
    rw [bitLength_two_pow]
    rw [Nat.clog_pow 2 _ one_lt_two]
  · simp [mkTree, MerkleTree.build]

/-- C3 amended witness: three events build to height 3 = ⌈log₂ 4⌉ + 1. -/
theorem C3_height_is_bit_length_witness :
    ((mkTree ["a", "b", "c"]).build demoHash).1.tree_height
        = Nat.clog 2 (nextPow 3) + 1
      ∧ ((mkTree []).build demoHash).1.tree_height = 0 :=
  C3_height_is_bit_length demoHash ["a", "b", "c"] (by decide)

/-! ## Claim C1 -/

theorem build_treeAB : treeAB.build demoHash = (builtAB, rootAB) := by
  simp [treeAB, mkTree, MerkleTree.build, padToPowerOfTwo, nextPow,
        nextPowLoop, padLoop, build_tree, buildLevels, buildLevel,
        bitLength, builtAB, rootAB, MerkleNode.hash]

/-- C1: refuted on the code. `verify_proof` does not recompute anything:
on the proof generated for leaf 0 of a two-leaf tree it returns `true`,
and it still returns `true` after the single path entry is replaced by
garbage and after the claimed root itself is replaced by a different
value — impossible for a verifier that returns true iff a recomputation
from the leaf equals the claimed root. The generated path holds no
sibling hashes or direction flags at all, only a `root_anchor` entry. -/
theorem C1_verify_recomputes_nothing :
    MerkleTree.generate_proof demoHash treeAB 0 = Except.ok (builtAB, proofAB)
      ∧ proofAB.proof = [("root_anchor", rootAB)]
      ∧ builtAB.verify_proof proofAB = true
      ∧ builtAB.verify_proof
          { proofAB with proof := [("root_anchor", demoHash "junk")] } = true
      ∧ builtAB.verify_proof { proofAB with root := demoHash "junk" } = true
      ∧ demoHash "junk" ≠ rootAB := by
  have hcond : rootFalsy treeAB.root = true := rfl
  refine ⟨?_, rfl, by decide, by decide, by decide, by decide⟩
  unfold MerkleTree.generate_proof
  rw [if_neg (by decide : ¬ ((treeAB.leaves.length : Int) ≤ 0))]
  simp only [hcond, if_true, build_treeAB]
  rfl

/-! ## Claim C2 -/

/-- C2: refuted on the code. A leaf node's stored value is the leaf hash
verbatim — not `H(0x00 ‖ L)` — and an internal node's stored value is
`H(A ‖ B)` with no `0x01` tag, as evaluation at concrete nodes shows. -/
theorem C2_no_domain_separation :
    MerkleNode.hash demoHash (MerkleNode.leaf leafA) = leafA
      ∧ leafA ≠ demoHash ("\x00" ++ leafA)
      ∧ MerkleNode.hash demoHash
          (MerkleNode.node (MerkleNode.leaf leafA) (MerkleNode.leaf leafB))
          = demoHash (leafA ++ leafB)
      ∧ demoHash (leafA ++ leafB) ≠ demoHash ("\x01" ++ leafA ++ leafB) :=
  ⟨rfl, by decide, rfl, by decide⟩

/-! ## Claim C4 -/

/-- C4: refuted on the code in its path-length part. A proof whose path
has 0 steps against a declared tree height of 3 still verifies `true`
(the code checks only `root != ""` and the digest length); the other two
malformed shapes — wrong digest length, empty claimed root — do return
`false`. -/
theorem C4_path_length_mismatch_not_rejected :
    (mkTree [leafA]).verify_proof malformedProof = true
      ∧ malformedProof.proof.length = 0
      ∧ malformedProof.tree_height = 3
      ∧ (mkTree [leafA]).verify_proof
          { malformedProof with event_hash := "short" } = false
      ∧ (mkTree [leafA]).verify_proof { malformedProof with root := "" } = false := by
  decide

/-! ## Claim C6 -/

/-- C6: the compliance score is `100 · |PASS| / |events|` (exact rational
arithmetic), `0` on an empty ledger, and the certificate's status is
`COMPLIANT` iff the score is at least 80, else `REVIEW_REQUIRED`. -/
theorem C6_score_and_status (H : String → String) (L : ComplianceLedger) :
    calculate_compliance_level L
        = (if L.events = [] then 0
           else 100 * ((L.events.filter
                 fun e => e.compliance_status = "PASS").length : ℚ)
               / (L.events.length : ℚ))
      ∧ (get_compliance_certificate H L).2.compliance_level
          = calculate_compliance_level L
      ∧ ((get_compliance_certificate H L).2.status = "COMPLIANT"
          ↔ 80 ≤ calculate_compliance_level L)
      ∧ ((get_compliance_certificate H L).2.status = "REVIEW_REQUIRED"
          ↔ ¬ 80 ≤ calculate_compliance_level L) := by
  have hstat : (get_compliance_certificate H L).2.status
      = (if calculate_compliance_level L ≥ 80 then "COMPLIANT"
         else "REVIEW_REQUIRED") := rfl
  refine ⟨?_, rfl, ?_, ?_⟩
  · unfold calculate_compliance_level
    by_cases h : L.events = []
    · rw [if_pos h, if_pos h]
    · rw [if_neg h, if_neg h]; ring
  · rw [hstat]
    by_cases h : calculate_compliance_level L ≥ 80
    · rw [if_pos h]
      exact ⟨fun _ => h, fun _ => rfl⟩
    · rw [if_neg h]
      constructor
      · intro hc
        exact absurd hc (by decide)
      · intro hc
        exact absurd hc h
  · rw [hstat]
    by_cases h : calculate_compliance_level L ≥ 80
    · rw [if_pos h]
      constructor
      · intro hc
        exact absurd hc (by decide)
      · intro hc
        exact absurd h hc
    · rw [if_neg h]
      exact ⟨fun _ => h, fun _ => rfl⟩

/-! ## Claim C7 -/

/-- C7: `generate_proof` raises the out-of-range `ValueError` for every
requested index at or above the unpadded event count, and for every
`0 ≤ i < n` it succeeds, returning a proof carrying the requested index
and that event's leaf hash. -/
theorem C7_index_range (H : String → String) (t : MerkleTree) (i : Int) :
    ((t.leaves.length : Int) ≤ i →
        t.generate_proof H i
          = Except.error "ValueError: Event index out of range")
      ∧ (0 ≤ i → i < (t.leaves.length : Int) →
          proofIdxHashOf (t.generate_proof H i)
            = some (i, t.leaves.getD i.toNat "")) := by
  constructor
  · intro h
    unfold MerkleTree.generate_proof
    rw [if_pos h]
  · intro h0 hlt
    have hleaves :
        ((if rootFalsy t.root then (t.build H).1 else t)).leaves
          = t.leaves := by
      split
      · exact build_leaves H t
      · rfl
    have hv : pyIndex
        ((if rootFalsy t.root then (t.build H).1 else t)).leaves i
        = Except.ok (t.leaves.getD i.toNat "") := by
      rw [hleaves]
      exact pyIndex_nonneg t.leaves i h0 hlt
    rw [generate_proof_ok_shape H t i hlt _ hv]
    rfl

/-- C7 witness: on the two-leaf tree, index 5 raises and index 1 returns
that leaf's hash. -/
theorem C7_index_range_witness :
    MerkleTree.generate_proof demoHash treeAB 5
        = Except.error "ValueError: Event index out of range"
      ∧ proofIdxHashOf (MerkleTree.generate_proof demoHash treeAB 1)
          = some (1, treeAB.leaves.getD 1 "") :=
  ⟨(C7_index_range demoHash treeAB 5).1 (by decide),
   (C7_index_range demoHash treeAB 1).2 (by decide) (by decide)⟩

/-! ## Claim C10 -/

/-- C10: a negative index `-n ≤ i < 0` slips past the
`event_index >= len(self.leaves)` check, and Python subscripting wraps
it around: `generate_proof` succeeds and the proof's event hash is the
leaf hash of event `n + i`. -/
theorem C10_negative_index_wraps (H : String → String) (t : MerkleTree)
    (i : Int) (hn : 1 ≤ t.leaves.length)
    (hlo : -(t.leaves.length : Int) ≤ i) (hhi : i < 0) :
    (t.generate_proof H i
        ≠ Except.error "ValueError: Event index out of range")
      ∧ proofIdxHashOf (t.generate_proof H i)
          = some (i, t.leaves.getD ((t.leaves.length : Int) + i).toNat "") := by
  have hlt : i < (t.leaves.length : Int) := by omega
  have hleaves :
      ((if rootFalsy t.root then (t.build H).1 else t)).leaves
        = t.leaves := by
    split
    · exact build_leaves H t
    · rfl
  have hv : pyIndex
      ((if rootFalsy t.root then (t.build H).1 else t)).leaves i
      = Except.ok (t.leaves.getD (i + (t.leaves.length : Int)).toNat "") := by
    rw [hleaves]
    exact pyIndex_neg t.leaves i hlo hhi
  rw [generate_proof_ok_shape H t i hlt _ hv]
  constructor
  · simp
  · rw [Int.add_comm (t.leaves.length : Int) i]
    rfl

/-- C10 witness: index `-1` on the two-leaf tree returns the hash of
event `2 + (-1) = 1`, the second leaf. -/
theorem C10_negative_index_wraps_witness :
    (MerkleTree.generate_proof demoHash treeAB (-1)
        ≠ Except.error "ValueError: Event index out of range")
      ∧ proofIdxHashOf (MerkleTree.generate_proof demoHash treeAB (-1))
          = some (-1, treeAB.leaves.getD ((2 : Int) + (-1)).toNat "") :=
  C10_negative_index_wraps demoHash treeAB (-1) (by decide) (by decide)
    (by decide)

/-! ## Claim C8 -/

/-- C8: refuted on the code. `add_event` only appends the leaf hash — it
never clears the cached root. With the one-leaf tree built (cached root
`leafA`) and a second event appended, `generate_proof` hands out a proof
still anchored at `leafA`, although the root of the current two-leaf list
is `demoHash (leafA ++ hashA) ≠ leafA`; the compliance certificate
likewise reports the stale `leafA`. -/
theorem C8_stale_root_counterexample :
    MerkleTree.generate_proof demoHash tAfter 1 = Except.ok (tAfter, staleProof)
      ∧ ((mkTree tAfter.leaves).build demoHash).2 = demoHash (leafA ++ hashA)
      ∧ demoHash (leafA ++ hashA) ≠ leafA
      ∧ (get_compliance_certificate demoHash staleLedger).2.ledger_root
          = leafA := by
  refine ⟨rfl, ?_, by decide, rfl⟩
  have : tAfter.leaves = [leafA, hashA] := rfl
  rw [this]
  simp [mkTree, MerkleTree.build, padToPowerOfTwo, nextPow, nextPowLoop,
        padLoop, build_tree, buildLevels, buildLevel, bitLength,
        MerkleNode.hash]

/-- C8 amended: appending an event does NOT mark the cached root stale.
`add_event` leaves `root` untouched, and whenever a non-empty root is
cached, both `generate_proof` and the compliance certificate report that
cached (now stale) root as-is instead of recomputing it from the current
leaf list. -/
theorem C8_append_keeps_cached_root (H : String → String)
    (t : MerkleTree) (e : Article12Event) (r : String)
    (hr : t.root = some r) (hne : r ≠ "")
    (i : Int) (h0 : 0 ≤ i)
    (hi : i < (((t.add_event H e).1).leaves.length : Int)) :
    ((t.add_event H e).1.root = some r)
      ∧ proofRootOf ((t.add_event H e).1.generate_proof H i) = some r
      ∧ (∀ L : ComplianceLedger, L.merkle_tree = (t.add_event H e).1 →
          (get_compliance_certificate H L).2.ledger_root = r) := by
  have hroot : (t.add_event H e).1.root = some r := by
    rw [show (t.add_event H e).1.root = t.root from rfl, hr]
  have hfalsy : rootFalsy ((t.add_event H e).1).root = false := by
    rw [hroot]
    simp [rootFalsy, hne]
  refine ⟨hroot, ?_, ?_⟩
  · have hv : pyIndex
        ((if rootFalsy (t.add_event H e).1.root
            then ((t.add_event H e).1.build H).1
            else (t.add_event H e).1)).leaves i
        = Except.ok (((t.add_event H e).1).leaves.getD i.toNat "") := by
      rw [hfalsy]
      simp only [Bool.false_eq_true, if_false]
      exact pyIndex_nonneg _ i h0 hi
    rw [generate_proof_ok_shape H _ i hi _ hv]
    simp only [hfalsy, Bool.false_eq_true, if_false, proofRootOf]
    rw [hroot]
    rfl
  · intro L hL
    have hfalsyL : rootFalsy L.merkle_tree.root = false := by
      rw [hL]
      exact hfalsy
    unfold get_compliance_certificate
    simp only [hfalsyL, Bool.false_eq_true, if_false]
    rw [hL, hroot]
    rfl

/-- C8 amended witness: the built one-leaf tree, one appended event. -/
theorem C8_append_keeps_cached_root_witness :
    ((tBuilt.add_event demoHash eventA).1.root = some leafA)
      ∧ proofRootOf
          ((tBuilt.add_event demoHash eventA).1.generate_proof demoHash 1)
          = some leafA
      ∧ (get_compliance_certificate demoHash staleLedger).2.ledger_root
          = leafA := by
  have h := C8_append_keeps_cached_root demoHash tBuilt eventA leafA rfl
    (by decide) 1 (by decide) (by decide)
  exact ⟨h.1, h.2.1, h.2.2 staleLedger rfl⟩

end Gallows
